import Mathlib

/-!
Shallow embedding of the towercg timers server plugin (src/index.js together
with the keyed reducer of src/reducer.js).  Timer records live in a keyed
store, modelled as an association list in insertion order, matching the
keyedSetter reducer (replace in place, append when the key is new).  The tick
engine scans a snapshot of the store and dispatches one update per running
timer.  Wall-clock reads (new Date().getTime()) are modelled by an explicit
`now` parameter.  A JS numeric field that can become NaN (the value field,
via a gap computed against a missing timestamp) is modelled by `JSNum`; the
timestamp field, absent from freshly created records, is an `Option Int`.
Dispatched store writes, emitted notifications and warning logs are collected
as an explicit event list; a JS throw is an `Except.error`.
-/

/-- JS number as it occurs in timer arithmetic: an integer, or NaN (which in
JS arises here when a gap is computed from an undefined timestamp). -/
inductive JSNum where
  | num (n : Int)
  | nan
  deriving DecidableEq, Repr

/-- JS addition: NaN is absorbing. -/
def JSNum.add : JSNum → JSNum → JSNum
  | .num a, .num b => .num (a + b)
  | _, _ => .nan

/-- JS subtraction: NaN is absorbing. -/
def JSNum.sub : JSNum → JSNum → JSNum
  | .num a, .num b => .num (a - b)
  | _, _ => .nan

/-- JS comparison x > y against an integer; any comparison with NaN is false. -/
def JSNum.gtInt : JSNum → Int → Bool
  | .num a, b => b < a
  | .nan, _ => false

/-- JS comparison x < y against an integer; any comparison with NaN is false. -/
def JSNum.ltInt : JSNum → Int → Bool
  | .num a, b => a < b
  | .nan, _ => false

/-- A timer record, as documented at the top of src/index.js.  The timestamp
is optional because a freshly created record carries no timestamp field at
all; the value is a `JSNum` because ticking a running timer that still lacks
a timestamp would produce a NaN value in JS. -/
structure Timer where
  name : String
  type : String
  running : Bool
  elapsed : Bool
  timestamp : Option Int
  value : JSNum
  duration : Int
  deriving DecidableEq, Repr

/-- Update rule for incrementing timers (timerFunctions.incrementing):
refresh the timestamp to now, add the gap to the value, recompute elapsed as
value > duration.  The gap is now minus the old timestamp, NaN when the old
record has no timestamp. -/
def incrementingFn (now : Int) (timer : Timer) : Timer :=
  let gap : JSNum := match timer.timestamp with
    | some ts => .num (now - ts)
    | none => .nan
  let v := timer.value.add gap
  { timer with timestamp := some now, value := v, elapsed := v.gtInt timer.duration }

/-- Update rule for decrementing timers (timerFunctions.decrementing):
refresh the timestamp to now, subtract the gap from the value, recompute
elapsed as value < 0. -/
def decrementingFn (now : Int) (timer : Timer) : Timer :=
  let gap : JSNum := match timer.timestamp with
    | some ts => .num (now - ts)
    | none => .nan
  let v := timer.value.sub gap
  { timer with timestamp := some now, value := v, elapsed := v.ltInt 0 }

/-- The timerFunctions table, keyed by the type string. -/
def timerFunctions (ty : String) : Option (Int → Timer → Timer) :=
  if ty = "incrementing" then some incrementingFn
  else if ty = "decrementing" then some decrementingFn
  else none

/-- Reset rule for incrementing timers: value becomes 0, every other field is
kept (lodash merge of the record with a value override). -/
def incResetFn (timer : Timer) : Timer :=
  { timer with value := .num 0 }

/-- Reset rule for decrementing timers: value becomes the duration. -/
def decResetFn (timer : Timer) : Timer :=
  { timer with value := .num timer.duration }

/-- The timerResetFunctions table, keyed by the type string. -/
def timerResetFunctions (ty : String) : Option (Timer → Timer) :=
  if ty = "incrementing" then some incResetFn
  else if ty = "decrementing" then some decResetFn
  else none

/-- The plugin state: the keyed timer map of the reducer, as an association
list in insertion order. -/
abbrev TimerState := List (String × Timer)

/-- Store lookup by key. -/
def lookupTimer (n : String) : TimerState → Option Timer
  | [] => none
  | (k, t) :: rest => if k = n then some t else lookupTimer n rest

/-- The timers.setTimerData action of the keyedSetter reducer: replace the
record at the key in place, or append it when the key is new. -/
def setTimer (k : String) (t : Timer) : TimerState → TimerState
  | [] => [(k, t)]
  | (k', t') :: rest =>
      if k' = k then (k, t) :: rest else (k', t') :: setTimer k t rest

/-- The timers.deleteTimer action of the keyedSetter reducer: drop the key. -/
def deleteTimerKey (k : String) : TimerState → TimerState
  | [] => []
  | (k', t) :: rest =>
      if k' = k then deleteTimerKey k rest else (k', t) :: deleteTimerKey k rest

/-- Observable effects of an operation or tick: store dispatches, emitted
notifications, and warning logs. -/
inductive Event where
  | setTimerData (key : String) (t : Timer)
  | deleteDispatch (key : String)
  | timerCreated (t : Timer)
  | timerDeleted (name : String)
  | timerReset (t : Timer)
  | timerPaused (t : Timer)
  | timerResumed (t : Timer)
  | timerElapsed (t : Timer)
  | warnUnrecognizedType (name : String) (ty : String)
  | warnAlreadyPaused (name : String)
  | warnAlreadyRunning (name : String)
  deriving DecidableEq, Repr

/-- Errors thrown by registry operations. -/
inductive Err where
  | timerNotFound (name : String)
  | duplicateTimer (name : String)
  | unknownTimerType (name : String) (ty : String)
  deriving DecidableEq, Repr

/-- Return value of a registry operation: a timer record, the deleted
confirmation object, or undefined (the warn branches of pause and resume). -/
inductive Ret where
  | timer (t : Timer)
  | deleted
  | noop
  deriving DecidableEq, Repr

/-- Result of one registry operation: the new state, the events raised, and
the returned value; or a thrown error. -/
abbrev OpResult := Except Err (TimerState × List Event × Ret)

/-- The duration argument of createTimer: a raw JS number (passed through the
number case of the switch with no further validation), or a duration string
already resolved to milliseconds by the external juration parser (a black
box per the spec; only its integer result is modelled). -/
inductive DurationInput where
  | num (n : Int)
  | str (parsedMs : Int)
  deriving DecidableEq, Repr

/-- Milliseconds a DurationInput resolves to in createTimer. -/
def resolveDuration : DurationInput → Int
  | .num n => n
  | .str m => m

/-- The withTimer helper: look the timer up, throw timerNotFound when absent,
otherwise run the callback on the record. -/
def withTimer (timerName : String) (s : TimerState)
    (cb : Timer → OpResult) : OpResult :=
  match lookupTimer timerName s with
  | none => .error (.timerNotFound timerName)
  | some t => cb t

/-- createTimer: reject a duplicate name, resolve the duration, reject an
unknown type, then build the fresh record through the reset rule and persist
it.  The JS object literal carries no timestamp and no value field; the reset
rule always writes value, so the placeholder value below is unobservable (the
two tables have the same keys, so the double match has no extra error arm in
practice). -/
def createTimer (timerName ty : String) (d : DurationInput) (s : TimerState) :
    OpResult :=
  if (lookupTimer timerName s).isSome then
    .error (.duplicateTimer timerName)
  else
    let duration := resolveDuration d
    match timerFunctions ty, timerResetFunctions ty with
    | some _, some resetFn =>
        let newTimer := resetFn
          { name := timerName, type := ty, duration := duration,
            running := false, elapsed := false,
            timestamp := none, value := .num 0 }
        .ok (setTimer newTimer.name newTimer s,
             [.setTimerData newTimer.name newTimer, .timerCreated newTimer],
             .timer newTimer)
    | _, _ => .error (.unknownTimerType timerName ty)

/-- deleteTimer: remove the record, emit timerDeleted with the name. -/
def deleteTimer (timerName : String) (s : TimerState) : OpResult :=
  withTimer timerName s fun timer =>
    .ok (deleteTimerKey timer.name s,
         [.deleteDispatch timer.name, .timerDeleted timerName],
         .deleted)

/-- resetTimer: apply the reset rule of the type, set running to the negation
of the pause argument and elapsed to false, persist and emit timerReset.  The
unguarded JS table indexing throws a TypeError on an unknown type; that throw
is modelled as the unknownTimerType error. -/
def resetTimer (timerName : String) (pause : Bool) (s : TimerState) : OpResult :=
  withTimer timerName s fun timer =>
    match timerResetFunctions timer.type with
    | none => .error (.unknownTimerType timerName timer.type)
    | some resetFn =>
        let newTimer := { resetFn timer with running := !pause, elapsed := false }
        .ok (setTimer newTimer.name newTimer s,
             [.setTimerData newTimer.name newTimer, .timerReset newTimer],
             .timer newTimer)

/-- pauseTimer: warn and do nothing when already paused, otherwise clear the
running flag only, persist and emit timerPaused. -/
def pauseTimer (timerName : String) (s : TimerState) : OpResult :=
  withTimer timerName s fun timer =>
    if timer.running then
      let newTimer := { timer with running := false }
      .ok (setTimer newTimer.name newTimer s,
           [.setTimerData newTimer.name newTimer, .timerPaused newTimer],
           .timer newTimer)
    else
      .ok (s, [.warnAlreadyPaused timer.name], .noop)

/-- resumeTimer: warn and do nothing when already running, otherwise set the
running flag and refresh the timestamp to now, persist and emit
timerResumed. -/
def resumeTimer (now : Int) (timerName : String) (s : TimerState) : OpResult :=
  withTimer timerName s fun timer =>
    if timer.running then
      .ok (s, [.warnAlreadyRunning timer.name], .noop)
    else
      let newTimer := { timer with running := true, timestamp := some now }
      .ok (setTimer newTimer.name newTimer s,
           [.setTimerData newTimer.name newTimer, .timerResumed newTimer],
           .timer newTimer)

/-- toggleTimer: look the timer up, then dispatch to pauseTimer when running
and to resumeTimer otherwise (the dispatched call performs its own second
lookup through withTimer, exactly as the source does). -/
def toggleTimer (now : Int) (timerName : String) (s : TimerState) : OpResult :=
  withTimer timerName s fun timer =>
    if timer.running then pauseTimer timerName s
    else resumeTimer now timerName s

/-- One timer as the tick engine leaves it: unchanged when not running or of
an unrecognized type, otherwise the update rule applied. -/
def tickTimer (now : Int) (timer : Timer) : Timer :=
  if timer.running then
    match timerFunctions timer.type with
    | none => timer
    | some f => f now timer
  else timer

/-- One iteration of the tick loop body over the accumulated store state and
event list: skip a non-running timer, warn on an unrecognized type, otherwise
dispatch the updated record (keyed by its name field) and emit timerElapsed
exactly when elapsed turned from false to true. -/
def tickEntry (now : Int) (acc : TimerState × List Event)
    (entry : String × Timer) : TimerState × List Event :=
  let timer := entry.2
  if timer.running then
    match timerFunctions timer.type with
    | none => (acc.1, acc.2 ++ [.warnUnrecognizedType timer.name timer.type])
    | some f =>
        let newTimer := f now timer
        (setTimer newTimer.name newTimer acc.1,
         acc.2 ++ ([.setTimerData newTimer.name newTimer] ++
           (if newTimer.elapsed && !timer.elapsed then [.timerElapsed newTimer]
            else [])))
  else acc

/-- The handleTimers scan: fold the loop body over a snapshot of the store,
threading the dispatched store updates and collecting the events. -/
def handleTimers (now : Int) (s : TimerState) : TimerState × List Event :=
  s.foldl (tickEntry now) (s, [])

/-- Events contributed by a single snapshot entry during a tick. -/
def tickEntryEvents (now : Int) (entry : String × Timer) : List Event :=
  let timer := entry.2
  if timer.running then
    match timerFunctions timer.type with
    | none => [.warnUnrecognizedType timer.name timer.type]
    | some f =>
        let newTimer := f now timer
        [.setTimerData newTimer.name newTimer] ++
          (if newTimer.elapsed && !timer.elapsed then [.timerElapsed newTimer]
           else [])
  else []

/-- Events of a whole tick scan, entry by entry. -/
def eventsOfEntries (now : Int) : List (String × Timer) → List Event
  | [] => []
  | e :: rest => tickEntryEvents now e ++ eventsOfEntries now rest

/-- A registry operation or a tick, with every wall-clock read explicit. -/
inductive Op where
  | create (name ty : String) (d : DurationInput)
  | delete (name : String)
  | reset (name : String) (pause : Bool)
  | pause (name : String)
  | resume (name : String) (now : Int)
  | toggle (name : String) (now : Int)
  | tick (now : Int)
  deriving DecidableEq, Repr

/-- Run one operation against a state. -/
def applyOp : Op → TimerState → OpResult
  | .create n ty d, s => createTimer n ty d s
  | .delete n, s => deleteTimer n s
  | .reset n p, s => resetTimer n p s
  | .pause n, s => pauseTimer n s
  | .resume n now, s => resumeTimer now n s
  | .toggle n now, s => toggleTimer now n s
  | .tick now, s =>
      .ok ((handleTimers now s).1, (handleTimers now s).2, .noop)

/-- State after one operation; a thrown error leaves the store untouched. -/
def runOp (op : Op) (s : TimerState) : TimerState :=
  match applyOp op s with
  | .ok (s', _, _) => s'
  | .error _ => s

/-- State reached from the empty registry by a sequence of operations. -/
def run (ops : List Op) : TimerState :=
  ops.foldl (fun s op => runOp op s) []

/-- States after a sequence of ticks at the given instants. -/
def runTicks (nows : List Int) (s : TimerState) : TimerState :=
  nows.foldl (fun st now => (handleTimers now st).1) s

/-- Every record is stored under its own name field (true of every reachable
state: creation keys the record by its name, and every later dispatch reuses
the name field). -/
abbrev WellNamed (s : TimerState) : Prop :=
  ∀ e ∈ s, (e : String × Timer).2.name = e.1

/-- Keys are pairwise distinct. -/
abbrev NodupKeys (s : TimerState) : Prop := (s.map Prod.fst).Nodup

/-- Store well-formedness: distinct keys, each record keyed by its name. -/
abbrev WF (s : TimerState) : Prop := NodupKeys s ∧ WellNamed s

theorem lookupTimer_setTimer_self (k : String) (t : Timer) (s : TimerState) :
    lookupTimer k (setTimer k t s) = some t := by
  induction s with
  | nil => simp [setTimer, lookupTimer]
  | cons e rest ih =>
      obtain ⟨k', t'⟩ := e
      by_cases h : k' = k
      · simp [setTimer, h, lookupTimer]
      · simp [setTimer, h, lookupTimer, ih]

theorem lookupTimer_setTimer_ne (k n : String) (t : Timer) (s : TimerState)
    (h : k ≠ n) : lookupTimer n (setTimer k t s) = lookupTimer n s := by
  induction s with
  | nil => simp [setTimer, lookupTimer, h]
  | cons e rest ih =>
      obtain ⟨k', t'⟩ := e
      by_cases hk : k' = k
      · subst hk
        simp [setTimer, lookupTimer, h]
      · simp [setTimer, hk, lookupTimer, ih]

theorem lookupTimer_deleteTimerKey (k n : String) (s : TimerState) :
    lookupTimer n (deleteTimerKey k s) =
      if k = n then none else lookupTimer n s := by
  induction s with
  | nil => simp [deleteTimerKey, lookupTimer]
  | cons e rest ih =>
      obtain ⟨k', t'⟩ := e
      by_cases hk : k' = k
      · subst hk
        simp only [deleteTimerKey, if_pos rfl, lookupTimer]
        by_cases hn : k' = n
        · subst hn
          simpa using ih
        · simpa [hn] using ih
      · simp only [deleteTimerKey, if_neg hk, lookupTimer]
        by_cases hn : k' = n
        · subst hn
          have hkn : ¬ k = k' := fun hc => hk hc.symm
          simp [hkn]
        · simp [hn, ih]

theorem mem_of_lookupTimer {n : String} {t : Timer} {s : TimerState}
    (h : lookupTimer n s = some t) : (n, t) ∈ s := by
  induction s with
  | nil => simp [lookupTimer] at h
  | cons e rest ih =>
      obtain ⟨k, t'⟩ := e
      by_cases hk : k = n
      · subst hk
        simp [lookupTimer] at h
        subst h
        exact List.mem_cons_self _ _
      · simp [lookupTimer, hk] at h
        exact List.mem_cons_of_mem _ (ih h)

theorem lookupTimer_eq_some_of_mem {n : String} {t : Timer} {s : TimerState}
    (hn : NodupKeys s) (hm : (n, t) ∈ s) : lookupTimer n s = some t := by
  induction s with
  | nil => simp at hm
  | cons e rest ih =>
      obtain ⟨k, t'⟩ := e
      have hh : k ∉ rest.map Prod.fst := by
        have h0 := hn
        simp only [NodupKeys, List.map_cons, List.nodup_cons] at h0
        exact h0.1
      have hrest : NodupKeys rest := by
        have h0 := hn
        simp only [NodupKeys, List.map_cons, List.nodup_cons] at h0
        exact h0.2
      rcases List.mem_cons.mp hm with h | h
      · injection h with h1 h2
        subst h1
        subst h2
        simp [lookupTimer]
      · by_cases hk : k = n
        · rw [hk] at hh
          exact absurd (List.mem_map_of_mem Prod.fst h) hh
        · simpa [lookupTimer, hk] using ih hrest h

theorem lookupTimer_eq_none {n : String} {s : TimerState}
    (h : n ∉ s.map Prod.fst) : lookupTimer n s = none := by
  induction s with
  | nil => rfl
  | cons e rest ih =>
      obtain ⟨k, t'⟩ := e
      simp only [List.map_cons, List.mem_cons] at h
      push_neg at h
      have h1 : ¬ k = n := fun hc => h.1 hc.symm
      simp [lookupTimer, h1, ih h.2]

theorem name_of_lookupTimer {n : String} {t : Timer} {s : TimerState}
    (hw : WellNamed s) (h : lookupTimer n s = some t) : t.name = n :=
  hw (n, t) (mem_of_lookupTimer h)

theorem setTimer_keys_of_mem {k : String} {s : TimerState} (t : Timer)
    (h : k ∈ s.map Prod.fst) :
    (setTimer k t s).map Prod.fst = s.map Prod.fst := by
  induction s with
  | nil => simp at h
  | cons e rest ih =>
      obtain ⟨k', t'⟩ := e
      by_cases hk : k' = k
      · simp [setTimer, hk]
      · simp only [List.map_cons, List.mem_cons] at h
        rcases h with h | h
        · exact absurd h.symm hk
        · simp [setTimer, hk, ih h]

theorem setTimer_wellNamed {k : String} {t : Timer} {s : TimerState}
    (hw : WellNamed s) (ht : t.name = k) : WellNamed (setTimer k t s) := by
  induction s with
  | nil =>
      intro e he
      simp [setTimer] at he
      subst he
      exact ht
  | cons hd rest ih =>
      obtain ⟨k', t'⟩ := hd
      by_cases hk : k' = k
      · intro e he
        simp [setTimer, hk] at he
        rcases he with he | he
        · subst he; exact ht
        · exact hw e (List.mem_cons_of_mem _ he)
      · intro e he
        simp only [setTimer, hk, if_false, List.mem_cons] at he
        rcases he with he | he
        · subst he
          exact hw (k', t') (List.mem_cons_self _ _)
        · exact ih (fun e' he' => hw e' (List.mem_cons_of_mem _ he')) e he

theorem tickFn_fields {ty : String} {f : Int → Timer → Timer}
    (h : timerFunctions ty = some f) (now : Int) (t : Timer) :
    (f now t).name = t.name ∧ (f now t).type = t.type ∧
    (f now t).running = t.running ∧ (f now t).duration = t.duration ∧
    (f now t).timestamp = some now := by
  unfold timerFunctions at h
  split_ifs at h
  · cases h
    exact ⟨rfl, rfl, rfl, rfl, rfl⟩
  · cases h
    exact ⟨rfl, rfl, rfl, rfl, rfl⟩

theorem tickTimer_fields (now : Int) (t : Timer) :
    (tickTimer now t).name = t.name ∧ (tickTimer now t).type = t.type ∧
    (tickTimer now t).running = t.running ∧
    (tickTimer now t).duration = t.duration := by
  cases hr : t.running with
  | false => simp [tickTimer, hr]
  | true =>
      cases h : timerFunctions t.type with
      | none => simp [tickTimer, hr, h]
      | some f =>
          obtain ⟨h1, h2, h3, h4, _⟩ := tickFn_fields h now t
          simp [tickTimer, hr, h, h1, h2, h3, h4]

theorem tickTimer_of_not_running {now : Int} {t : Timer}
    (h : t.running = false) : tickTimer now t = t := by
  simp [tickTimer, h]

theorem tickTimer_of_unknown {now : Int} {t : Timer}
    (h : timerFunctions t.type = none) : tickTimer now t = t := by
  unfold tickTimer
  by_cases hr : t.running <;> simp [hr, h]

theorem tickTimer_of_fn {now : Int} {t : Timer} {f : Int → Timer → Timer}
    (hr : t.running = true) (h : timerFunctions t.type = some f) :
    tickTimer now t = f now t := by
  simp [tickTimer, hr, h]

theorem foldl_tickEntry_events (now : Int) (l : List (String × Timer)) :
    ∀ (st : TimerState) (evs : List Event),
      (List.foldl (tickEntry now) (st, evs) l).2 = evs ++ eventsOfEntries now l := by
  induction l with
  | nil =>
      intro st evs
      simp [eventsOfEntries]
  | cons e rest ih =>
      intro st evs
      rw [List.foldl_cons]
      have hsplit : tickEntry now (st, evs) e =
          ((tickEntry now (st, evs) e).1, evs ++ tickEntryEvents now e) := by
        unfold tickEntry tickEntryEvents
        cases hr : e.2.running
        · simp [hr]
        · cases h : timerFunctions e.2.type <;> simp [hr, h]
      rw [hsplit, ih]
      simp [eventsOfEntries]

theorem foldl_tickEntry_lookup (now : Int) (n : String) :
    ∀ (l : List (String × Timer)) (st : TimerState) (evs : List Event),
      WellNamed l → NodupKeys l →
      lookupTimer n (List.foldl (tickEntry now) (st, evs) l).1 =
        (match lookupTimer n l with
         | some t =>
             if t.running && (timerFunctions t.type).isSome
             then some (tickTimer now t) else lookupTimer n st
         | none => lookupTimer n st) := by
  intro l
  induction l with
  | nil =>
      intro st evs _ _
      simp [lookupTimer]
  | cons e rest ih =>
      intro st evs hw hn
      obtain ⟨k, t⟩ := e
      have hname : t.name = k := hw (k, t) (List.mem_cons_self _ _)
      have hw' : WellNamed rest := fun e he => hw e (List.mem_cons_of_mem _ he)
      have hk_not : k ∉ rest.map Prod.fst := by
        simp only [NodupKeys, List.map_cons, List.nodup_cons] at hn
        exact hn.1
      have hn' : NodupKeys rest := by
        simp only [NodupKeys, List.map_cons, List.nodup_cons] at hn
        exact hn.2
      rw [List.foldl_cons]
      by_cases hkn : k = n
      · subst hkn
        have hrest_none : lookupTimer k rest = none := lookupTimer_eq_none hk_not
        cases hr : t.running with
        | false =>
            have hstep : tickEntry now (st, evs) (k, t) = (st, evs) := by
              simp [tickEntry, hr]
            rw [hstep, ih st evs hw' hn']
            simp [lookupTimer, hrest_none, hr]
        | true =>
            cases hf : timerFunctions t.type with
            | none =>
                have hstep : tickEntry now (st, evs) (k, t) =
                    (st, evs ++ [.warnUnrecognizedType t.name t.type]) := by
                  simp [tickEntry, hr, hf]
                rw [hstep, ih _ _ hw' hn']
                simp [lookupTimer, hrest_none, hr, hf]
            | some f =>
                have hfname : (f now t).name = k := by
                  rw [(tickFn_fields hf now t).1, hname]
                have hstep : tickEntry now (st, evs) (k, t) =
                    (setTimer (f now t).name (f now t) st,
                     evs ++ ([.setTimerData (f now t).name (f now t)] ++
                       (if (f now t).elapsed && !t.elapsed
                        then [.timerElapsed (f now t)] else []))) := by
                  simp [tickEntry, hr, hf]
                rw [hstep, ih _ _ hw' hn']
                simp [lookupTimer, hrest_none, hr, hf, hfname,
                      lookupTimer_setTimer_self, tickTimer_of_fn hr hf]
      · have hstate : lookupTimer n (tickEntry now (st, evs) (k, t)).1 =
            lookupTimer n st := by
          unfold tickEntry
          cases hr : t.running
          · simp [hr]
          · cases hf : timerFunctions t.type with
            | none => simp [hr, hf]
            | some f =>
                have hfname : (f now t).name = k := by
                  rw [(tickFn_fields hf now t).1, hname]
                have hne : (f now t).name ≠ n := by
                  rw [hfname]; exact hkn
                simp [hr, hf, lookupTimer_setTimer_ne _ _ _ _ hne]
        have hfold := ih (tickEntry now (st, evs) (k, t)).1
          (tickEntry now (st, evs) (k, t)).2 hw' hn'
        rw [Prod.mk.eta] at hfold
        rw [hfold]
        cases hlr : lookupTimer n rest <;>
          simp [lookupTimer, hkn, hlr, hstate]

theorem foldl_tickEntry_keys (now : Int) :
    ∀ (l : List (String × Timer)) (st : TimerState) (evs : List Event),
      (∀ e ∈ l, (e : String × Timer).2.name ∈ st.map Prod.fst) →
      ((List.foldl (tickEntry now) (st, evs) l).1).map Prod.fst =
        st.map Prod.fst := by
  intro l
  induction l with
  | nil =>
      intro st evs _
      rfl
  | cons e rest ih =>
      intro st evs hmem
      obtain ⟨k, t⟩ := e
      rw [List.foldl_cons]
      have hkeys : ((tickEntry now (st, evs) (k, t)).1).map Prod.fst =
          st.map Prod.fst := by
        unfold tickEntry
        cases hr : t.running
        · simp [hr]
        · cases hf : timerFunctions t.type with
          | none => simp [hr, hf]
          | some f =>
              have hfname : (f now t).name = t.name := (tickFn_fields hf now t).1
              have hmem0 : (f now t).name ∈ st.map Prod.fst := by
                rw [hfname]
                exact hmem (k, t) (List.mem_cons_self _ _)
              simp [hr, hf, setTimer_keys_of_mem _ hmem0]
      have hfold := ih (tickEntry now (st, evs) (k, t)).1
        (tickEntry now (st, evs) (k, t)).2
        (fun e he => by
          rw [hkeys]
          exact hmem e (List.mem_cons_of_mem _ he))
      rw [Prod.mk.eta] at hfold
      rw [hfold, hkeys]

theorem foldl_tickEntry_wellNamed (now : Int) :
    ∀ (l : List (String × Timer)) (st : TimerState) (evs : List Event),
      WellNamed st → WellNamed (List.foldl (tickEntry now) (st, evs) l).1 := by
  intro l
  induction l with
  | nil =>
      intro st evs hw
      exact hw
  | cons e rest ih =>
      intro st evs hw
      obtain ⟨k, t⟩ := e
      rw [List.foldl_cons]
      have hwn : WellNamed (tickEntry now (st, evs) (k, t)).1 := by
        unfold tickEntry
        cases hr : t.running
        · simpa [hr] using hw
        · cases hf : timerFunctions t.type with
          | none => simpa [hr, hf] using hw
          | some f =>
              simp only [hr, hf]
              exact setTimer_wellNamed hw rfl
      have hfold := ih (tickEntry now (st, evs) (k, t)).1
        (tickEntry now (st, evs) (k, t)).2 hwn
      rw [Prod.mk.eta] at hfold
      exact hfold

theorem WF_handleTimers (now : Int) {s : TimerState} (h : WF s) :
    WF (handleTimers now s).1 := by
  have hmem : ∀ e ∈ s, (e : String × Timer).2.name ∈ s.map Prod.fst := by
    intro e he
    rw [h.2 e he]
    exact List.mem_map_of_mem Prod.fst he
  constructor
  · show ((handleTimers now s).1.map Prod.fst).Nodup
    rw [handleTimers, foldl_tickEntry_keys now s s [] hmem]
    exact h.1
  · exact foldl_tickEntry_wellNamed now s s [] h.2

theorem handleTimers_snd (now : Int) (s : TimerState) :
    (handleTimers now s).2 = eventsOfEntries now s := by
  rw [handleTimers, foldl_tickEntry_events]
  simp

theorem lookupTimer_handleTimers (now : Int) {s : TimerState} {n : String}
    {t : Timer} (hwf : WF s) (h : lookupTimer n s = some t) :
    lookupTimer n (handleTimers now s).1 = some (tickTimer now t) := by
  rw [handleTimers, foldl_tickEntry_lookup now n s s [] hwf.2 hwf.1, h]
  cases hr : t.running with
  | false => simp [hr, h, tickTimer_of_not_running hr]
  | true =>
      cases hf : timerFunctions t.type with
      | none => simp [hr, hf, h, tickTimer_of_unknown hf]
      | some f => simp [hr, hf]

theorem mem_eventsOfEntries {now : Int} {ev : Event} :
    ∀ {l : List (String × Timer)},
      ev ∈ eventsOfEntries now l ↔ ∃ e ∈ l, ev ∈ tickEntryEvents now e := by
  intro l
  induction l with
  | nil => simp [eventsOfEntries]
  | cons e rest ih =>
      simp only [eventsOfEntries, List.mem_append, ih, List.mem_cons]
      constructor
      · rintro (h | ⟨e', he', hev⟩)
        · exact ⟨e, Or.inl rfl, h⟩
        · exact ⟨e', Or.inr he', hev⟩
      · rintro ⟨e', he' | he', hev⟩
        · subst he'
          exact Or.inl hev
        · exact Or.inr ⟨e', he', hev⟩

theorem resetFn_fields {ty : String} {g : Timer → Timer}
    (h : timerResetFunctions ty = some g) (t : Timer) :
    (g t).name = t.name ∧ (g t).type = t.type ∧ (g t).running = t.running ∧
    (g t).elapsed = t.elapsed ∧ (g t).timestamp = t.timestamp ∧
    (g t).duration = t.duration := by
  unfold timerResetFunctions at h
  split_ifs at h
  · cases h
    exact ⟨rfl, rfl, rfl, rfl, rfl, rfl⟩
  · cases h
    exact ⟨rfl, rfl, rfl, rfl, rfl, rfl⟩

theorem lookupTimer_runOp_create (m ty : String) (d : DurationInput)
    {s : TimerState} {n : String} {t : Timer} (h : lookupTimer n s = some t) :
    lookupTimer n (runOp (.create m ty d) s) = some t := by
  unfold runOp applyOp createTimer
  by_cases hm : (lookupTimer m s).isSome
  · simp [hm, h]
  · have hnm : m ≠ n := by
      intro hc
      subst hc
      rw [h] at hm
      simp at hm
    cases hf : timerFunctions ty with
    | none => simp [hm, hf, h]
    | some f =>
        cases hg : timerResetFunctions ty with
        | none => simp [hm, hf, hg, h]
        | some g =>
            have hname := (resetFn_fields hg
              { name := m, type := ty, duration := resolveDuration d,
                running := false, elapsed := false,
                timestamp := none, value := .num 0 }).1
            simp only [hm, hf, hg, if_neg, Bool.false_eq_true, if_false]
            simp [hname, lookupTimer_setTimer_ne _ _ _ _ hnm, h]

theorem lookupTimer_runOp_delete {m : String} {s : TimerState} {n : String}
    {t : Timer} (hwf : WF s) (h : lookupTimer n s = some t) :
    lookupTimer n (runOp (.delete m) s) =
      if m = n then none else some t := by
  unfold runOp applyOp deleteTimer withTimer
  cases hm : lookupTimer m s with
  | none =>
      have hmn : m ≠ n := by
        intro hc
        subst hc
        rw [h] at hm
        cases hm
      simp [hm, hmn, h]
  | some tm =>
      have hname : tm.name = m := name_of_lookupTimer hwf.2 hm
      simp [hm, hname, lookupTimer_deleteTimerKey, h]

theorem lookupTimer_runOp_reset {m : String} {p : Bool} {s : TimerState}
    {n : String} {t : Timer} (hwf : WF s) (h : lookupTimer n s = some t) :
    lookupTimer n (runOp (.reset m p) s) =
      if m = n then
        match timerResetFunctions t.type with
        | none => some t
        | some g => some { g t with running := !p, elapsed := false }
      else some t := by
  unfold runOp applyOp resetTimer withTimer
  cases hm : lookupTimer m s with
  | none =>
      have hmn : m ≠ n := by
        intro hc
        subst hc
        rw [h] at hm
        cases hm
      simp [hm, hmn, h]
  | some tm =>
      have hname : tm.name = m := name_of_lookupTimer hwf.2 hm
      by_cases hmn : m = n
      · subst hmn
        rw [h] at hm
        injection hm with hm
        subst hm
        cases hg : timerResetFunctions t.type with
        | none => simp [h, hg]
        | some g =>
            have hgname : (g t).name = t.name := (resetFn_fields hg t).1
            simp [h, hg, hgname, hname, lookupTimer_setTimer_self]
      · cases hg : timerResetFunctions tm.type with
        | none => simp [hm, hg, hmn, h]
        | some g =>
            have hgname : (g tm).name = tm.name := (resetFn_fields hg tm).1
            have hne : (g tm).name ≠ n := by
              rw [hgname, hname]
              exact hmn
            simp [hm, hg, hmn, lookupTimer_setTimer_ne _ _ _ _ hne, h]

theorem lookupTimer_runOp_pause {m : String} {s : TimerState}
    {n : String} {t : Timer} (hwf : WF s) (h : lookupTimer n s = some t) :
    lookupTimer n (runOp (.pause m) s) =
      if m = n then
        some (if t.running then { t with running := false } else t)
      else some t := by
  unfold runOp applyOp pauseTimer withTimer
  cases hm : lookupTimer m s with
  | none =>
      have hmn : m ≠ n := by
        intro hc
        subst hc
        rw [h] at hm
        cases hm
      simp [hm, hmn, h]
  | some tm =>
      have hname : tm.name = m := name_of_lookupTimer hwf.2 hm
      by_cases hmn : m = n
      · subst hmn
        rw [h] at hm
        injection hm with hm
        subst hm
        cases hr : t.running with
        | false => simp [h, hr]
        | true => simp [h, hr, hname, lookupTimer_setTimer_self]
      · cases hr : tm.running with
        | false => simp [hm, hr, hmn, h]
        | true =>
            have hne : tm.name ≠ n := by
              rw [hname]; exact hmn
            simp [hm, hr, hmn, lookupTimer_setTimer_ne _ _ _ _ hne, h]

theorem lookupTimer_runOp_resume {m : String} {now : Int} {s : TimerState}
    {n : String} {t : Timer} (hwf : WF s) (h : lookupTimer n s = some t) :
    lookupTimer n (runOp (.resume m now) s) =
      if m = n then
        some (if t.running then t
              else { t with running := true, timestamp := some now })
      else some t := by
  unfold runOp applyOp resumeTimer withTimer
  cases hm : lookupTimer m s with
  | none =>
      have hmn : m ≠ n := by
        intro hc
        subst hc
        rw [h] at hm
        cases hm
      simp [hm, hmn, h]
  | some tm =>
      have hname : tm.name = m := name_of_lookupTimer hwf.2 hm
      by_cases hmn : m = n
      · subst hmn
        rw [h] at hm
        injection hm with hm
        subst hm
        cases hr : t.running with
        | true => simp [h, hr]
        | false => simp [h, hr, hname, lookupTimer_setTimer_self]
      · cases hr : tm.running with
        | true => simp [hm, hr, hmn, h]
        | false =>
            have hne : tm.name ≠ n := by
              rw [hname]; exact hmn
            simp [hm, hr, hmn, lookupTimer_setTimer_ne _ _ _ _ hne, h]

theorem runOp_toggle_eq {m : String} {now : Int} {s : TimerState} {tm : Timer}
    (hm : lookupTimer m s = some tm) :
    runOp (.toggle m now) s =
      if tm.running then runOp (.pause m) s else runOp (.resume m now) s := by
  simp only [runOp, applyOp, toggleTimer, withTimer, hm]
  cases hr : tm.running <;> simp [hr]

theorem lookupTimer_runOp_toggle {m : String} {now : Int} {s : TimerState}
    {n : String} {t : Timer} (hwf : WF s) (h : lookupTimer n s = some t) :
    lookupTimer n (runOp (.toggle m now) s) =
      if m = n then
        some (if t.running then { t with running := false }
              else { t with running := true, timestamp := some now })
      else some t := by
  cases hm : lookupTimer m s with
  | none =>
      have hmn : m ≠ n := by
        intro hc
        subst hc
        rw [h] at hm
        cases hm
      simp [runOp, applyOp, toggleTimer, withTimer, hm, hmn, h]
  | some tm =>
      rw [runOp_toggle_eq hm]
      by_cases hmn : m = n
      · subst hmn
        rw [h] at hm
        injection hm with hm
        subst hm
        cases hr : t.running with
        | true => simp [hr, lookupTimer_runOp_pause hwf h]
        | false => simp [hr, lookupTimer_runOp_resume hwf h]
      · cases hr : tm.running with
        | true => simp [hr, hmn, lookupTimer_runOp_pause hwf h]
        | false => simp [hr, hmn, lookupTimer_runOp_resume hwf h]

theorem lookupTimer_runOp_tick {now : Int} {s : TimerState} {n : String}
    {t : Timer} (hwf : WF s) (h : lookupTimer n s = some t) :
    lookupTimer n (runOp (.tick now) s) = some (tickTimer now t) := by
  show lookupTimer n (handleTimers now s).1 = some (tickTimer now t)
  exact lookupTimer_handleTimers now hwf h

/-- C1: for every running timer with a recorded timestamp, one invocation of
the update rule of its type produces, with gap g = now - timestamp: for an
incrementing timer value plus g, timestamp now, and elapsed exactly when the
new value exceeds duration; for a decrementing timer value minus g, timestamp
now, and elapsed exactly when the new value is below zero; name, type,
running and duration are unchanged (record update touches no other field). -/
theorem tick_update_rule_C1 (now : Int) (t : Timer) (ts : Int)
    (hrun : t.running = true) (hts : t.timestamp = some ts) :
    (t.type = "incrementing" →
      tickTimer now t =
        { t with timestamp := some now,
                 value := t.value.add (.num (now - ts)),
                 elapsed := (t.value.add (.num (now - ts))).gtInt t.duration }) ∧
    (t.type = "decrementing" →
      tickTimer now t =
        { t with timestamp := some now,
                 value := t.value.sub (.num (now - ts)),
                 elapsed := (t.value.sub (.num (now - ts))).ltInt 0 }) := by
  constructor
  · intro hty
    have hf : timerFunctions t.type = some incrementingFn := by
      simp [timerFunctions, hty]
    rw [tickTimer_of_fn hrun hf]
    simp [incrementingFn, hts]
  · intro hty
    have hf : timerFunctions t.type = some decrementingFn := by
      simp [timerFunctions, hty]
    rw [tickTimer_of_fn hrun hf]
    simp [decrementingFn, hts]

/-- Witness for C1 at a concrete incrementing timer. -/
theorem tick_update_rule_C1_witness :
    tickTimer 110 ⟨"t", "incrementing", true, false, some 100, .num 3, 10⟩ =
      ⟨"t", "incrementing", true, true, some 110, .num 13, 10⟩ := by
  have h := (tick_update_rule_C1 110
    ⟨"t", "incrementing", true, false, some 100, .num 3, 10⟩ 100 rfl rfl).1 rfl
  rw [h]
  decide

/-- C4: createTimer on a name that already exists fails with the duplicate
error, and the state is unchanged: no store write, no notification. -/
theorem duplicate_create_C4 (s : TimerState) (n ty : String)
    (d : DurationInput) (t : Timer) (h : lookupTimer n s = some t) :
    createTimer n ty d s = .error (.duplicateTimer n) ∧
    runOp (.create n ty d) s = s := by
  have hc : createTimer n ty d s = .error (.duplicateTimer n) := by
    unfold createTimer
    simp [h]
  exact ⟨hc, by simp [runOp, applyOp, hc]⟩

/-- Witness for C4 at a concrete one-timer registry. -/
theorem duplicate_create_C4_witness :
    createTimer "t" "incrementing" (.num 5)
      [("t", ⟨"t", "incrementing", false, false, none, .num 0, 5⟩)] =
      .error (.duplicateTimer "t") ∧
    runOp (.create "t" "incrementing" (.num 5))
      [("t", ⟨"t", "incrementing", false, false, none, .num 0, 5⟩)] =
      [("t", ⟨"t", "incrementing", false, false, none, .num 0, 5⟩)] :=
  duplicate_create_C4 _ "t" "incrementing" (.num 5)
    ⟨"t", "incrementing", false, false, none, .num 0, 5⟩ (by decide)

/-- C5: resetTimer on an existing timer of a built-in type persists and
returns the record with the reset value of the type (0 for incrementing, the
duration for decrementing), elapsed false, running equal to the negation of
the pause argument, and the timestamp exactly the pre-reset timestamp (never
refreshed to now); name, type and duration unchanged. -/
theorem reset_behavior_C5 (s : TimerState) (n : String) (p : Bool) (t : Timer)
    (h : lookupTimer n s = some t) :
    (t.type = "incrementing" →
      resetTimer n p s =
        .ok (setTimer t.name
               { t with value := .num 0, running := !p, elapsed := false } s,
             [.setTimerData t.name
                { t with value := .num 0, running := !p, elapsed := false },
              .timerReset
                { t with value := .num 0, running := !p, elapsed := false }],
             .timer
               { t with value := .num 0, running := !p, elapsed := false })) ∧
    (t.type = "decrementing" →
      resetTimer n p s =
        .ok (setTimer t.name
               { t with value := .num t.duration, running := !p,
                        elapsed := false } s,
             [.setTimerData t.name
                { t with value := .num t.duration, running := !p,
                         elapsed := false },
              .timerReset
                { t with value := .num t.duration, running := !p,
                         elapsed := false }],
             .timer
               { t with value := .num t.duration, running := !p,
                        elapsed := false })) := by
  constructor <;> intro hty <;>
    simp [resetTimer, withTimer, h, timerResetFunctions, hty,
          incResetFn, decResetFn]

/-- Witness for C5: a decrementing timer, reset with pause false; the stale
timestamp 5 is kept and the value returns to the duration. -/
theorem reset_behavior_C5_witness :
    resetTimer "t" false
      [("t", ⟨"t", "decrementing", false, true, some 5, .num 7, 9⟩)] =
      .ok ([("t", ⟨"t", "decrementing", true, false, some 5, .num 9, 9⟩)],
           [.setTimerData "t" ⟨"t", "decrementing", true, false, some 5, .num 9, 9⟩,
            .timerReset ⟨"t", "decrementing", true, false, some 5, .num 9, 9⟩],
           .timer ⟨"t", "decrementing", true, false, some 5, .num 9, 9⟩) := by
  have h := (reset_behavior_C5
    [("t", ⟨"t", "decrementing", false, true, some 5, .num 7, 9⟩)] "t" false
    ⟨"t", "decrementing", false, true, some 5, .num 7, 9⟩ (by decide)).2 rfl
  rw [h]
  rfl

/-- C6: resumeTimer on an existing paused timer persists and returns the
record with running true and timestamp refreshed to now, with value, elapsed,
name, type and duration unchanged; and pauseTimer on a running timer followed
by resumeTimer yields a record whose value is exactly the original value
(with timestamp refreshed). -/
theorem resume_behavior_C6 (now : Int) (s : TimerState) (n : String)
    (t : Timer) (h : lookupTimer n s = some t) :
    (t.running = false →
      resumeTimer now n s =
        .ok (setTimer t.name
               { t with running := true, timestamp := some now } s,
             [.setTimerData t.name
                { t with running := true, timestamp := some now },
              .timerResumed
                { t with running := true, timestamp := some now }],
             .timer { t with running := true, timestamp := some now })) ∧
    (t.running = true → t.name = n →
      pauseTimer n s =
        .ok (setTimer n { t with running := false } s,
             [.setTimerData n { t with running := false },
              .timerPaused { t with running := false }],
             .timer { t with running := false }) ∧
      resumeTimer now n (setTimer n { t with running := false } s) =
        .ok (setTimer n { t with running := true, timestamp := some now }
               (setTimer n { t with running := false } s),
             [.setTimerData n { t with running := true, timestamp := some now },
              .timerResumed { t with running := true, timestamp := some now }],
             .timer { t with running := true, timestamp := some now })) := by
  constructor
  · intro hr
    simp [resumeTimer, withTimer, h, hr]
  · intro hr hname
    constructor
    · simp [pauseTimer, withTimer, h, hr, hname]
    · have h2 : lookupTimer n (setTimer n { t with running := false } s) =
          some { t with running := false } := lookupTimer_setTimer_self ..
      rw [hname] at h2
      simp [resumeTimer, withTimer, h2, hname]

/-- Witness for C6: pause then resume on a concrete running timer preserves
the value 7 and refreshes the timestamp to 50. -/
theorem resume_behavior_C6_witness :
    pauseTimer "t" [("t", ⟨"t", "incrementing", true, false, some 20, .num 7, 9⟩)] =
      .ok ([("t", ⟨"t", "incrementing", false, false, some 20, .num 7, 9⟩)],
           [.setTimerData "t" ⟨"t", "incrementing", false, false, some 20, .num 7, 9⟩,
            .timerPaused ⟨"t", "incrementing", false, false, some 20, .num 7, 9⟩],
           .timer ⟨"t", "incrementing", false, false, some 20, .num 7, 9⟩) ∧
    resumeTimer 50 "t" [("t", ⟨"t", "incrementing", false, false, some 20, .num 7, 9⟩)] =
      .ok ([("t", ⟨"t", "incrementing", true, false, some 50, .num 7, 9⟩)],
           [.setTimerData "t" ⟨"t", "incrementing", true, false, some 50, .num 7, 9⟩,
            .timerResumed ⟨"t", "incrementing", true, false, some 50, .num 7, 9⟩],
           .timer ⟨"t", "incrementing", true, false, some 50, .num 7, 9⟩) := by
  have h := (resume_behavior_C6 50
    [("t", ⟨"t", "incrementing", true, false, some 20, .num 7, 9⟩)] "t"
    ⟨"t", "incrementing", true, false, some 20, .num 7, 9⟩ (by decide)).2 rfl rfl
  constructor
  · rw [h.1]
    rfl
  · have h2 := h.2
    rw [show setTimer "t"
        (⟨"t", "incrementing", false, false, some 20, .num 7, 9⟩ : Timer)
        [("t", ⟨"t", "incrementing", true, false, some 20, .num 7, 9⟩)] =
        [("t", (⟨"t", "incrementing", false, false, some 20, .num 7, 9⟩ : Timer))]
      from by decide] at h2
    rw [h2]
    rfl

/-- C7: toggleTimer dispatches to pauseTimer when the timer is running and to
resumeTimer when it is paused, with the identical result (same state, same
store write, same notification, same return value); the dispatched call
always takes its active branch, so the already-paused or already-running
warn no-op branch is unreachable through toggle. -/
theorem toggle_dispatch_C7 (now : Int) (s : TimerState) (n : String)
    (t : Timer) (h : lookupTimer n s = some t) :
    (t.running = true →
      toggleTimer now n s = pauseTimer n s ∧
      pauseTimer n s =
        .ok (setTimer t.name { t with running := false } s,
             [.setTimerData t.name { t with running := false },
              .timerPaused { t with running := false }],
             .timer { t with running := false })) ∧
    (t.running = false →
      toggleTimer now n s = resumeTimer now n s ∧
      resumeTimer now n s =
        .ok (setTimer t.name { t with running := true, timestamp := some now } s,
             [.setTimerData t.name
                { t with running := true, timestamp := some now },
              .timerResumed { t with running := true, timestamp := some now }],
             .timer { t with running := true, timestamp := some now })) := by
  constructor
  · intro hr
    refine ⟨?_, ?_⟩
    · simp [toggleTimer, withTimer, h, hr]
    · simp [pauseTimer, withTimer, h, hr]
  · intro hr
    refine ⟨?_, ?_⟩
    · simp [toggleTimer, withTimer, h, hr]
    · simp [resumeTimer, withTimer, h, hr]

/-- Witness for C7 at a concrete paused timer: toggle resumes it. -/
theorem toggle_dispatch_C7_witness :
    toggleTimer 50 "t"
      [("t", ⟨"t", "incrementing", false, false, some 20, .num 7, 9⟩)] =
      resumeTimer 50 "t"
        [("t", ⟨"t", "incrementing", false, false, some 20, .num 7, 9⟩)] ∧
    resumeTimer 50 "t"
      [("t", ⟨"t", "incrementing", false, false, some 20, .num 7, 9⟩)] =
      .ok ([("t", ⟨"t", "incrementing", true, false, some 50, .num 7, 9⟩)],
           [.setTimerData "t" ⟨"t", "incrementing", true, false, some 50, .num 7, 9⟩,
            .timerResumed ⟨"t", "incrementing", true, false, some 50, .num 7, 9⟩],
           .timer ⟨"t", "incrementing", true, false, some 50, .num 7, 9⟩) := by
  have h := (toggle_dispatch_C7 50
    [("t", ⟨"t", "incrementing", false, false, some 20, .num 7, 9⟩)] "t"
    ⟨"t", "incrementing", false, false, some 20, .num 7, 9⟩ (by decide)).2 rfl
  exact ⟨h.1, h.2.trans (by rfl)⟩

/-- C2: in one tick over a well-formed store, a timerElapsed notification
naming n is raised exactly when that tick turns the elapsed flag of the timer
named n from false to true; a tick on which the timer stays elapsed, falls
back to not elapsed, or is skipped raises none. -/
theorem elapsed_edge_trigger_C2 (now : Int) (s : TimerState) (n : String)
    (hwf : WF s) :
    (∃ r, Event.timerElapsed r ∈ (handleTimers now s).2 ∧ r.name = n) ↔
    (∃ t, lookupTimer n s = some t ∧ t.elapsed = false ∧
          (tickTimer now t).elapsed = true) := by
  rw [handleTimers_snd]
  constructor
  · rintro ⟨r, hr, hname⟩
    rcases mem_eventsOfEntries.mp hr with ⟨⟨k, tm⟩, hmem, hev⟩
    have hkname : tm.name = k := hwf.2 (k, tm) hmem
    cases hrun : tm.running with
    | false => simp [tickEntryEvents, hrun] at hev
    | true =>
        cases hf : timerFunctions tm.type with
        | none => simp [tickEntryEvents, hrun, hf] at hev
        | some f =>
            have hfname : (f now tm).name = tm.name :=
              (tickFn_fields hf now tm).1
            cases hcond : ((f now tm).elapsed && !tm.elapsed) with
            | false => simp [tickEntryEvents, hrun, hf, hcond] at hev
            | true =>
                simp [tickEntryEvents, hrun, hf, hcond] at hev
                obtain ⟨hel, hnel⟩ : (f now tm).elapsed = true ∧
                    tm.elapsed = false := by simpa using hcond
                have hkn : k = n := by
                  rw [← hname, hev, hfname, hkname]
                subst hkn
                refine ⟨tm, lookupTimer_eq_some_of_mem hwf.1 hmem, hnel, ?_⟩
                rw [tickTimer_of_fn hrun hf]
                exact hel
  · rintro ⟨t, hl, hel, htick⟩
    have hmem : (n, t) ∈ s := mem_of_lookupTimer hl
    have hname : t.name = n := hwf.2 _ hmem
    cases hrun : t.running with
    | false =>
        rw [tickTimer_of_not_running hrun, hel] at htick
        cases htick
    | true =>
        cases hf : timerFunctions t.type with
        | none =>
            rw [tickTimer_of_unknown hf, hel] at htick
            cases htick
        | some f =>
            rw [tickTimer_of_fn hrun hf] at htick
            refine ⟨f now t, ?_, ?_⟩
            · apply mem_eventsOfEntries.mpr
              refine ⟨(n, t), hmem, ?_⟩
              have hcond : ((f now t).elapsed && !t.elapsed) = true := by
                rw [htick, hel]
                rfl
              simp [tickEntryEvents, hrun, hf, hcond]
            · rw [(tickFn_fields hf now t).1, hname]

/-- Witness for C2: a concrete tick on which the single incrementing timer
crosses its duration raises a timerElapsed notification. -/
theorem elapsed_edge_trigger_C2_witness :
    ∃ r, Event.timerElapsed r ∈
        (handleTimers 10
          [("t", ⟨"t", "incrementing", true, false, some 0, .num 0, 5⟩)]).2 ∧
      r.name = "t" :=
  (elapsed_edge_trigger_C2 10
      [("t", ⟨"t", "incrementing", true, false, some 0, .num 0, 5⟩)] "t"
      ⟨by decide, by decide⟩).mpr
    ⟨⟨"t", "incrementing", true, false, some 0, .num 0, 5⟩, by decide, rfl,
     by decide⟩

/-- C8: a tick over a well-formed store in which the timer named n is running
but has a type with no update rule never throws (the tick is total), logs the
unrecognized-type warning, leaves the record of n unchanged and in place,
dispatches no store write for n, and still gives every timer of the scan its
usual per-timer result. -/
theorem unknown_type_skip_C8 (now : Int) (s : TimerState) (n : String)
    (t : Timer) (hwf : WF s) (h : lookupTimer n s = some t)
    (hrun : t.running = true) (hf : timerFunctions t.type = none) :
    (∀ e, applyOp (.tick now) s ≠ .error e) ∧
    lookupTimer n (handleTimers now s).1 = some t ∧
    Event.warnUnrecognizedType t.name t.type ∈ (handleTimers now s).2 ∧
    (∀ r, Event.setTimerData n r ∉ (handleTimers now s).2) ∧
    (∀ m tm, lookupTimer m s = some tm →
      lookupTimer m (handleTimers now s).1 = some (tickTimer now tm)) := by
  refine ⟨?_, ?_, ?_, ?_, ?_⟩
  · intro e hc
    simp [applyOp] at hc
  · rw [lookupTimer_handleTimers now hwf h, tickTimer_of_unknown hf]
  · rw [handleTimers_snd]
    apply mem_eventsOfEntries.mpr
    refine ⟨(n, t), mem_of_lookupTimer h, ?_⟩
    simp [tickEntryEvents, hrun, hf]
  · intro r hc
    rw [handleTimers_snd] at hc
    rcases mem_eventsOfEntries.mp hc with ⟨⟨k, tm⟩, hmem, hev⟩
    have hkname : tm.name = k := hwf.2 (k, tm) hmem
    cases hrun2 : tm.running with
    | false => simp [tickEntryEvents, hrun2] at hev
    | true =>
        cases hf2 : timerFunctions tm.type with
        | none => simp [tickEntryEvents, hrun2, hf2] at hev
        | some f =>
            have hfname : (f now tm).name = tm.name :=
              (tickFn_fields hf2 now tm).1
            have hkn : n = k → False := by
              intro hkn
              subst hkn
              have hlt : lookupTimer n s = some tm :=
                lookupTimer_eq_some_of_mem hwf.1 hmem
              rw [h] at hlt
              injection hlt with hlt
              rw [hlt] at hf
              rw [hf2] at hf
              exact Option.noConfusion hf
            cases hcond : ((f now tm).elapsed && !tm.elapsed) with
            | false =>
                simp [tickEntryEvents, hrun2, hf2, hcond] at hev
                exact hkn (by rw [hev.1, hfname, hkname])
            | true =>
                simp [tickEntryEvents, hrun2, hf2, hcond] at hev
                exact hkn (by rw [hev.1, hfname, hkname])
  · intro m tm hm
    exact lookupTimer_handleTimers now hwf hm

/-- Witness for C8: one running timer of an unrecognized type next to one
running incrementing timer; the former is warned about and untouched, the
latter still updates. -/
theorem unknown_type_skip_C8_witness :
    lookupTimer "a"
      (handleTimers 10
        [("a", ⟨"a", "weird", true, false, some 0, .num 0, 5⟩),
         ("b", ⟨"b", "incrementing", true, false, some 0, .num 1, 5⟩)]).1 =
      some ⟨"a", "weird", true, false, some 0, .num 0, 5⟩ ∧
    Event.warnUnrecognizedType "a" "weird" ∈
      (handleTimers 10
        [("a", ⟨"a", "weird", true, false, some 0, .num 0, 5⟩),
         ("b", ⟨"b", "incrementing", true, false, some 0, .num 1, 5⟩)]).2 ∧
    lookupTimer "b"
      (handleTimers 10
        [("a", ⟨"a", "weird", true, false, some 0, .num 0, 5⟩),
         ("b", ⟨"b", "incrementing", true, false, some 0, .num 1, 5⟩)]).1 =
      some (tickTimer 10 ⟨"b", "incrementing", true, false, some 0, .num 1, 5⟩) := by
  have h := unknown_type_skip_C8 10
    [("a", ⟨"a", "weird", true, false, some 0, .num 0, 5⟩),
     ("b", ⟨"b", "incrementing", true, false, some 0, .num 1, 5⟩)] "a"
    ⟨"a", "weird", true, false, some 0, .num 0, 5⟩
    ⟨by decide, by decide⟩ (by decide) rfl rfl
  exact ⟨h.2.1, h.2.2.1, h.2.2.2.2 "b"
    ⟨"b", "incrementing", true, false, some 0, .num 1, 5⟩ (by decide)⟩

/-- C3 (amended): ticking leaves the record of a non-running timer identical
over any sequence of ticks, and the only operations that can turn the stored
running flag of such a timer to true are an explicit resume, a toggle (which
dispatches to resumeTimer), or a reset with pause false.  The frozen claim
names resume alone; the reset case is what the counterexample exhibits. -/
theorem paused_tick_noop_C3 :
    (∀ (nows : List Int) (s : TimerState) (n : String) (t : Timer),
       WF s → lookupTimer n s = some t → t.running = false →
       lookupTimer n (runTicks nows s) = some t) ∧
    (∀ (s : TimerState) (op : Op) (n : String) (t t' : Timer),
       WF s → lookupTimer n s = some t → t.running = false →
       (∀ now, op ≠ .resume n now) → (∀ now, op ≠ .toggle n now) →
       op ≠ .reset n false →
       lookupTimer n (runOp op s) = some t' → t'.running = false) := by
  constructor
  · intro nows
    induction nows with
    | nil =>
        intro s n t _ h _
        exact h
    | cons now rest ih =>
        intro s n t hwf h hr
        have h1 : lookupTimer n (handleTimers now s).1 = some t := by
          rw [lookupTimer_handleTimers now hwf h, tickTimer_of_not_running hr]
        exact ih (handleTimers now s).1 n t (WF_handleTimers now hwf) h1 hr
  · intro s op n t t' hwf h hr hres htog hrst h'
    cases op with
    | create m ty d =>
        rw [lookupTimer_runOp_create m ty d h] at h'
        injection h' with h'
        rw [← h']
        exact hr
    | delete m =>
        rw [lookupTimer_runOp_delete hwf h] at h'
        by_cases hmn : m = n
        · simp [hmn] at h'
        · simp [hmn] at h'
          rw [← h']
          exact hr
    | reset m p =>
        rw [lookupTimer_runOp_reset hwf h] at h'
        by_cases hmn : m = n
        · subst hmn
          cases hp : p with
          | false =>
              subst hp
              exact absurd rfl hrst
          | true =>
              subst hp
              cases hg : timerResetFunctions t.type with
              | none =>
                  rw [hg] at h'
                  simp at h'
                  rw [← h']
                  exact hr
              | some g =>
                  rw [hg] at h'
                  simp at h'
                  rw [← h']
        · simp [hmn] at h'
          rw [← h']
          exact hr
    | pause m =>
        rw [lookupTimer_runOp_pause hwf h] at h'
        by_cases hmn : m = n
        · simp [hmn, hr] at h'
          rw [← h']
          exact hr
        · simp [hmn] at h'
          rw [← h']
          exact hr
    | resume m now1 =>
        have hmn : m ≠ n := by
          intro hc
          subst hc
          exact hres now1 rfl
        rw [lookupTimer_runOp_resume hwf h] at h'
        simp [hmn] at h'
        rw [← h']
        exact hr
    | toggle m now1 =>
        have hmn : m ≠ n := by
          intro hc
          subst hc
          exact htog now1 rfl
        rw [lookupTimer_runOp_toggle hwf h] at h'
        simp [hmn] at h'
        rw [← h']
        exact hr
    | tick now1 =>
        rw [lookupTimer_runOp_tick hwf h, tickTimer_of_not_running hr] at h'
        injection h' with h'
        rw [← h']
        exact hr

/-- Witness for C3: two concrete ticks leave a paused timer record identical,
and a pause aimed at an absent name leaves its running flag false. -/
theorem paused_tick_noop_C3_witness :
    lookupTimer "t" (runTicks [5, 9]
        [("t", ⟨"t", "incrementing", false, false, some 2, .num 3, 9⟩)]) =
      some ⟨"t", "incrementing", false, false, some 2, .num 3, 9⟩ ∧
    (⟨"t", "incrementing", false, false, some 2, .num 3, 9⟩ : Timer).running =
      false :=
  ⟨paused_tick_noop_C3.1 [5, 9]
      [("t", ⟨"t", "incrementing", false, false, some 2, .num 3, 9⟩)] "t"
      ⟨"t", "incrementing", false, false, some 2, .num 3, 9⟩
      ⟨by decide, by decide⟩ (by decide) rfl,
   paused_tick_noop_C3.2
      [("t", ⟨"t", "incrementing", false, false, some 2, .num 3, 9⟩)]
      (.pause "x") "t"
      ⟨"t", "incrementing", false, false, some 2, .num 3, 9⟩
      ⟨"t", "incrementing", false, false, some 2, .num 3, 9⟩
      ⟨by decide, by decide⟩ (by decide) rfl
      (fun now hc => Op.noConfusion hc) (fun now hc => Op.noConfusion hc)
      (fun hc => Op.noConfusion hc) (by decide)⟩

/-- C3 counterexample: the clause that only an explicit resume sets the
running flag to true is false on the code: resetTimer with pause false turns
a paused timer into a running one. -/
theorem paused_tick_noop_C3_counterexample :
    ¬ (∀ (s : TimerState) (op : Op) (n : String) (t t' : Timer),
         lookupTimer n s = some t → t.running = false →
         (∀ (m : String) (now : Int), op ≠ .resume m now) →
         lookupTimer n (runOp op s) = some t' → t'.running = false) := by
  intro hclaim
  have h := hclaim
    [("t", ⟨"t", "incrementing", false, false, none, .num 0, 1000⟩)]
    (.reset "t" false) "t"
    ⟨"t", "incrementing", false, false, none, .num 0, 1000⟩
    ⟨"t", "incrementing", true, false, none, .num 0, 1000⟩
    (by decide) rfl (fun m now hc => Op.noConfusion hc) (by decide)
  exact absurd h (by decide)

/-- C9 (amended): the duration of a stored timer is exactly the integer
established at creation — no operation or tick ever changes it.  The
non-negativity half of the frozen claim is not enforced by the code (numeric
durations are accepted unvalidated); see the counterexample. -/
theorem duration_immutable_C9 (s : TimerState) (op : Op) (n : String)
    (t t' : Timer) (hwf : WF s) (h : lookupTimer n s = some t)
    (h' : lookupTimer n (runOp op s) = some t') :
    t'.duration = t.duration := by
  cases op with
  | create m ty d =>
      rw [lookupTimer_runOp_create m ty d h] at h'
      injection h' with h'
      rw [← h']
  | delete m =>
      rw [lookupTimer_runOp_delete hwf h] at h'
      by_cases hmn : m = n
      · simp [hmn] at h'
      · simp [hmn] at h'
        rw [← h']
  | reset m p =>
      rw [lookupTimer_runOp_reset hwf h] at h'
      by_cases hmn : m = n
      · subst hmn
        cases hg : timerResetFunctions t.type with
        | none =>
            rw [hg] at h'
            simp at h'
            rw [← h']
        | some g =>
            rw [hg] at h'
            simp at h'
            rw [← h']
            exact (resetFn_fields hg t).2.2.2.2.2
      · simp [hmn] at h'
        rw [← h']
  | pause m =>
      rw [lookupTimer_runOp_pause hwf h] at h'
      by_cases hmn : m = n
      · simp [hmn] at h'
        cases hr : t.running with
        | true =>
            simp [hr] at h'
            rw [← h']
        | false =>
            simp [hr] at h'
            rw [← h']
      · simp [hmn] at h'
        rw [← h']
  | resume m now1 =>
      rw [lookupTimer_runOp_resume hwf h] at h'
      by_cases hmn : m = n
      · simp [hmn] at h'
        cases hr : t.running with
        | true =>
            simp [hr] at h'
            rw [← h']
        | false =>
            simp [hr] at h'
            rw [← h']
      · simp [hmn] at h'
        rw [← h']
  | toggle m now1 =>
      rw [lookupTimer_runOp_toggle hwf h] at h'
      by_cases hmn : m = n
      · simp [hmn] at h'
        cases hr : t.running with
        | true =>
            simp [hr] at h'
            rw [← h']
        | false =>
            simp [hr] at h'
            rw [← h']
      · simp [hmn] at h'
        rw [← h']
  | tick now1 =>
      rw [lookupTimer_runOp_tick hwf h] at h'
      injection h' with h'
      rw [← h']
      exact (tickTimer_fields now1 t).2.2.2

/-- Witness for C9 immutability at a concrete reset. -/
theorem duration_immutable_C9_witness :
    (⟨"t", "decrementing", true, false, some 2, .num 9, 9⟩ : Timer).duration =
      (⟨"t", "decrementing", false, true, some 2, .num 3, 9⟩ : Timer).duration :=
  duration_immutable_C9
    [("t", ⟨"t", "decrementing", false, true, some 2, .num 3, 9⟩)]
    (.reset "t" false) "t"
    ⟨"t", "decrementing", false, true, some 2, .num 3, 9⟩
    ⟨"t", "decrementing", true, false, some 2, .num 9, 9⟩
    ⟨by decide, by decide⟩ (by decide) (by decide)

/-- C9 counterexample: a reachable registry state holds a timer with a
negative duration, because createTimer accepts a raw negative number with no
validation. -/
theorem duration_immutable_C9_counterexample :
    ¬ (∀ (ops : List Op) (n : String) (t : Timer),
         lookupTimer n (run ops) = some t → 0 ≤ t.duration) := by
  intro hclaim
  have h := hclaim [.create "t" "incrementing" (.num (-1))] "t"
    ⟨"t", "incrementing", false, false, none, .num 0, -1⟩ (by decide)
  exact absurd h (by decide)

/-- C10: a successful createTimer persists and returns exactly the record
with the given name, type and duration, running false, elapsed false, the
reset value of the type, and no timestamp field at all (timestamp none); and
over a well-formed store the timestamp of a stored record can change only
through a resume, a toggle (which runs resumeTimer), or a tick whose update
rule fires on the timer. -/
theorem create_record_shape_C10 :
    (∀ (s : TimerState) (n : String) (d : Int), lookupTimer n s = none →
       createTimer n "incrementing" (.num d) s =
         .ok (setTimer n ⟨n, "incrementing", false, false, none, .num 0, d⟩ s,
              [.setTimerData n ⟨n, "incrementing", false, false, none, .num 0, d⟩,
               .timerCreated ⟨n, "incrementing", false, false, none, .num 0, d⟩],
              .timer ⟨n, "incrementing", false, false, none, .num 0, d⟩)) ∧
    (∀ (s : TimerState) (n : String) (d : Int), lookupTimer n s = none →
       createTimer n "decrementing" (.num d) s =
         .ok (setTimer n ⟨n, "decrementing", false, false, none, .num d, d⟩ s,
              [.setTimerData n ⟨n, "decrementing", false, false, none, .num d, d⟩,
               .timerCreated ⟨n, "decrementing", false, false, none, .num d, d⟩],
              .timer ⟨n, "decrementing", false, false, none, .num d, d⟩)) ∧
    (∀ (s : TimerState) (op : Op) (n : String) (t t' : Timer),
       WF s → lookupTimer n s = some t →
       lookupTimer n (runOp op s) = some t' → t'.timestamp ≠ t.timestamp →
       (∃ now, op = .resume n now) ∨ (∃ now, op = .toggle n now) ∨
       (∃ now, op = .tick now)) := by
  refine ⟨?_, ?_, ?_⟩
  · intro s n d h
    simp [createTimer, h, timerFunctions, timerResetFunctions, incResetFn,
          resolveDuration]
  · intro s n d h
    simp [createTimer, h, timerFunctions, timerResetFunctions, decResetFn,
          resolveDuration]
  · intro s op n t t' hwf h h' hts
    cases op with
    | create m ty d =>
        rw [lookupTimer_runOp_create m ty d h] at h'
        injection h' with h'
        exact absurd (by rw [← h']) hts
    | delete m =>
        rw [lookupTimer_runOp_delete hwf h] at h'
        by_cases hmn : m = n
        · simp [hmn] at h'
        · simp [hmn] at h'
          exact absurd (by rw [← h']) hts
    | reset m p =>
        rw [lookupTimer_runOp_reset hwf h] at h'
        by_cases hmn : m = n
        · subst hmn
          cases hg : timerResetFunctions t.type with
          | none =>
              rw [hg] at h'
              simp at h'
              exact absurd (by rw [← h']) hts
          | some g =>
              rw [hg] at h'
              simp at h'
              refine absurd ?_ hts
              rw [← h']
              exact (resetFn_fields hg t).2.2.2.2.1
        · simp [hmn] at h'
          exact absurd (by rw [← h']) hts
    | pause m =>
        rw [lookupTimer_runOp_pause hwf h] at h'
        by_cases hmn : m = n
        · simp [hmn] at h'
          cases hr : t.running with
          | true =>
              simp [hr] at h'
              exact absurd (by rw [← h']) hts
          | false =>
              simp [hr] at h'
              exact absurd (by rw [← h']) hts
        · simp [hmn] at h'
          exact absurd (by rw [← h']) hts
    | resume m now1 =>
        by_cases hmn : m = n
        · exact Or.inl ⟨now1, by rw [hmn]⟩
        · rw [lookupTimer_runOp_resume hwf h] at h'
          simp [hmn] at h'
          exact absurd (by rw [← h']) hts
    | toggle m now1 =>
        by_cases hmn : m = n
        · exact Or.inr (Or.inl ⟨now1, by rw [hmn]⟩)
        · rw [lookupTimer_runOp_toggle hwf h] at h'
          simp [hmn] at h'
          exact absurd (by rw [← h']) hts
    | tick now1 =>
        exact Or.inr (Or.inr ⟨now1, rfl⟩)

/-- Witness for C10: createTimer at the empty registry yields the literal
timestamp-free record, and a concrete timestamp change is accounted for by
the resume that caused it. -/
theorem create_record_shape_C10_witness :
    createTimer "t" "incrementing" (.num 5) [] =
      .ok ([("t", ⟨"t", "incrementing", false, false, none, .num 0, 5⟩)],
           [.setTimerData "t" ⟨"t", "incrementing", false, false, none, .num 0, 5⟩,
            .timerCreated ⟨"t", "incrementing", false, false, none, .num 0, 5⟩],
           .timer ⟨"t", "incrementing", false, false, none, .num 0, 5⟩) ∧
    ((∃ now, (Op.resume "t" 7 : Op) = .resume "t" now) ∨
     (∃ now, (Op.resume "t" 7 : Op) = .toggle "t" now) ∨
     (∃ now, (Op.resume "t" 7 : Op) = .tick now)) :=
  ⟨(create_record_shape_C10.1 [] "t" 5 rfl).trans (by rfl),
   create_record_shape_C10.2.2
     [("t", ⟨"t", "incrementing", false, false, none, .num 0, 5⟩)]
     (.resume "t" 7) "t"
     ⟨"t", "incrementing", false, false, none, .num 0, 5⟩
     ⟨"t", "incrementing", true, false, some 7, .num 0, 5⟩
     ⟨by decide, by decide⟩ (by decide) (by decide) (by decide)⟩
